import Mathlib

/-!
A shallow embedding of the technical-indicator and ranking engine of the
stock-analysis repository (files `advanced_analyzer.py`, `stock_analyzer.py`,
`compare_stocks.py`), together with theorems settling the specification
claims about it.

Prices, averages and percentages are modelled as rationals.  The Python
implementation works on IEEE doubles; the two places where the float
semantics is observable (division by a zero denominator producing `inf` or
`NaN`) are modelled explicitly by the `ExtVal` type, so that `0/0 = NaN`
and `x/0 = ±inf` are reproduced faithfully instead of being collapsed to
the rational convention `x/0 = 0`.
-/

/-- Python's `round` uses round-half-to-even (banker's rounding).
`roundHalfEven q` is the integer nearest to `q`, ties going to the even
integer. -/
def roundHalfEven (q : ℚ) : ℤ :=
  if q - (⌊q⌋ : ℚ) < 1/2 then ⌊q⌋
  else if 1/2 < q - (⌊q⌋ : ℚ) then ⌊q⌋ + 1
  else if 2 ∣ ⌊q⌋ then ⌊q⌋ else ⌊q⌋ + 1

/-- Python's `round(x, 2)` on a rational value. -/
def round2 (q : ℚ) : ℚ := (roundHalfEven (q * 100) : ℚ) / 100

/-- Python's `round(x, 1)` on a rational value. -/
def round1 (q : ℚ) : ℚ := (roundHalfEven (q * 10) : ℚ) / 10

/-- The observable outcomes of a float computation in this code base: a
finite (rational) value, `inf`, `-inf`, or `NaN`. -/
inductive ExtVal where
  | fin (q : ℚ)
  | inf
  | negInf
  | nan
deriving DecidableEq, Repr

/-- Rounding `round(v, 2)` lifted to `ExtVal`: Python's `round` maps `inf`
to `inf` and `nan` to `nan`. -/
def ExtVal.round2v : ExtVal → ExtVal
  | .fin q => .fin (round2 q)
  | v => v

/-- The value `((num / den) * 100)` rounded to 2 decimals, under IEEE-754 semantics
for a zero denominator: `0/0 = NaN`, `x/0 = ±inf` for `x ≠ 0`. -/
def divPct (num den : ℚ) : ExtVal :=
  if den = 0 then
    (if num = 0 then .nan else if 0 < num then .inf else .negInf)
  else .fin (round2 (num / den * 100))

/-! ### Series-level helpers (`df['Close']` as a `List ℚ`, oldest first) -/

/-- Models `df['Close'].iloc[-1]` — the latest close of a (nonempty) series. -/
def lastClose (s : List ℚ) : ℚ := s.getLastD 0

/-- The last `n` elements of a list (`Series.tail(n)` / the final rolling
window). -/
def lastN (l : List ℚ) (n : ℕ) : List ℚ := l.drop (l.length - n)

/-- Models `df['Close'].rolling(window=p).mean().iloc[-1]` — the unrounded mean of
the last `p` closes. -/
def maRaw (s : List ℚ) (p : ℕ) : ℚ := (lastN s p).sum / p

/-! ### `AdvancedStockAnalyzer.calculate_moving_averages`
(`advanced_analyzer.py` lines 96–114; `stock_analyzer.py` lines 41–54 is the
same computation without the `diff` entry). -/

/-- The `'{p}d_MA'` entry: `round(ma.iloc[-1], 2)` when `len(df) >= p`,
`None` otherwise. -/
def maValue (s : List ℚ) (p : ℕ) : Option ℚ :=
  if p ≤ s.length then some (round2 (maRaw s p)) else none

/-- The `'{p}d_MA_diff_%'` entry:
`round(((current_price - ma.iloc[-1]) / ma.iloc[-1]) * 100, 2)` when
`len(df) >= p`, `None` otherwise.  The division uses the *unrounded* mean;
a zero mean produces `NaN`/`inf` under float semantics (no guard in the
source). -/
def maDiff (s : List ℚ) (p : ℕ) : Option ExtVal :=
  if p ≤ s.length then
    let ma := maRaw s p
    let current_price := lastClose s
    some (divPct (current_price - ma) ma)
  else none

/-! ### `AdvancedStockAnalyzer.calculate_technical_indicators`
(`advanced_analyzer.py` lines 116–141): the RSI(14) pipeline. -/

/-- Models `df['Close'].diff()` without its leading `NaN`: the day-over-day close
deltas. -/
def deltas (s : List ℚ) : List ℚ := List.zipWith (fun prev next => next - prev) s s.tail

/-- Models `delta.where(delta > 0, 0)` — positive deltas, negatives floored to 0. -/
def gainVals (s : List ℚ) : List ℚ := (deltas s).map (fun d => if 0 < d then d else 0)

/-- Models `-delta.where(delta < 0, 0)` — absolute values of negative deltas. -/
def lossVals (s : List ℚ) : List ℚ := (deltas s).map (fun d => if d < 0 then -d else 0)

/-- Models `x.rolling(window=14).mean().iloc[-1]` — mean of the last 14 entries. -/
def meanLast14 (l : List ℚ) : ℚ := (lastN l 14).sum / 14

/-- Models `rs = gain / loss` at the last position, with float semantics for a
zero denominator (`0/0 = NaN`, `g/0 = inf` for `g > 0`). -/
def rsLast (s : List ℚ) : ExtVal :=
  let g := meanLast14 (gainVals s)
  let l := meanLast14 (lossVals s)
  if l = 0 then (if g = 0 then .nan else if 0 < g then .inf else .negInf)
  else .fin (g / l)

/-- Models `rsi = 100 - (100 / (1 + rs))` on extended values:
`rs = inf → 100`, `rs = NaN → NaN`. -/
def rsiOf : ExtVal → ExtVal
  | .nan => .nan
  | .inf => .fin 100
  | .negInf => .fin 100
  | .fin x => if 1 + x = 0 then .negInf else .fin (100 - 100 / (1 + x))

/-- Models `indicators['RSI_14']`: absent when `len(df) < 20` (the function-entry
gate) and otherwise `round(rsi.iloc[-1], 2)` computed when `len(df) >= 14`. -/
def rsi14 (s : List ℚ) : Option ExtVal :=
  if 20 ≤ s.length then
    if 14 ≤ s.length then some ((rsiOf (rsLast s)).round2v) else none
  else none

/-! ### Price changes (`advanced_analyzer.py` lines 170–179,
`stock_analyzer.py` lines 87–98). -/

/-- The `'{days}d_change_%'` entry: computed when `len(df) >= days` from
`old_price = df['Close'].iloc[-days]` (position `len - days`) and
`current_price = analysis['current_stats']['current_price']`, which is the
*rounded* latest close.  Division by a zero `old_price` follows float
semantics. -/
def priceChange (s : List ℚ) (days : ℕ) : Option ExtVal :=
  if days ≤ s.length then
    let old_price := s.getD (s.length - days) 0
    let current_price := round2 (lastClose s)
    some (divPct (current_price - old_price) old_price)
  else none

/-- The `price_changes` dictionary of
`AdvancedStockAnalyzer.analyze_stock_comprehensive`: one entry per horizon
in `[1, 5, 15, 30, 90]`, present exactly when that horizon's own length
guard holds. -/
def priceChangesDict (s : List ℚ) : List (ℕ × ExtVal) :=
  [1, 5, 15, 30, 90].filterMap (fun d => (priceChange s d).map (fun v => (d, v)))

/-! ### The `compare_stocks.py` side.

`StockComparator` consumes `stock_analysis.json`, the output of
`StockAnalyzer.analyze_stock`: per ticker a record with (optionally) a
`current_stats` block, a `moving_averages` dictionary whose keys are
`'15d_MA' … '200d_MA'` (each value a number or `null`), and a
`price_changes` dictionary with keys `'15_day_change_%'` and
`'30_day_change_%'` (each a number or `null`).  An errored ticker's record
has none of these blocks.  The loaded data is an insertion-ordered
dictionary, modelled as an association list. -/

/-- The `moving_averages` block of a record: the five `'{p}d_MA'` entries,
each `null` or a number. -/
structure MovingAverages where
  ma15 : Option ℚ
  ma30 : Option ℚ
  ma50 : Option ℚ
  ma100 : Option ℚ
  ma200 : Option ℚ
deriving DecidableEq, Repr

/-- The values of the `moving_averages` dictionary in key order. -/
def MovingAverages.vals (m : MovingAverages) : List (Option ℚ) :=
  [m.ma15, m.ma30, m.ma50, m.ma100, m.ma200]

/-- The `price_changes` block: the `'15_day_change_%'` and
`'30_day_change_%'` entries. -/
structure PriceChanges where
  c15 : Option ℚ
  c30 : Option ℚ
deriving DecidableEq, Repr

/-- The two price-change horizons present in `stock_analysis.json`. -/
inductive Horizon where
  | d15
  | d30
deriving DecidableEq, Repr

/-- Dictionary access `data[symbol]['price_changes'][period]`. -/
def PriceChanges.get (pc : PriceChanges) : Horizon → Option ℚ
  | .d15 => pc.c15
  | .d30 => pc.c30

/-- The `current_stats` block (only `current_price` is read by the
comparator's ranking logic). -/
structure CurrentStats where
  current_price : ℚ
deriving DecidableEq, Repr

/-- One ticker's record in the loaded JSON.  A missing block (as in an
error-marker record) is `none`. -/
structure StockRecord where
  current_stats : Option CurrentStats
  moving_averages : Option MovingAverages
  price_changes : Option PriceChanges
deriving DecidableEq, Repr

/-- The loaded `self.data`: symbol → record, insertion ordered. -/
abbrev StockData := List (String × StockRecord)

/-- Models `symbol in self.data` / `self.data[symbol]`: first record stored under
the symbol, if any. -/
def findRecord (d : StockData) (symbol : String) : Option StockRecord :=
  match d with
  | [] => none
  | (s, r) :: rest => if s = symbol then some r else findRecord rest symbol

/-- The result dictionary of `StockComparator.analyze_trend_strength`. -/
structure TrendStrength where
  trend : String
  strength_score : ℚ
  above_mas : ℕ
  total_mas : ℕ
deriving DecidableEq, Repr

/-- Models `StockComparator.analyze_trend_strength` (`compare_stocks.py` lines
34–72) applied to one record.  `if ma_value` is Python truthiness: a `None`
*or zero* value is skipped.  The five keys all contain the substring
`'d_MA'`, so the name filter keeps every entry. -/
def analyze_trend_strength (r : StockRecord) : Option TrendStrength :=
  match r.current_stats, r.moving_averages with
  | some st, some ma =>
    let price := st.current_price
    let above_below : List Bool := ma.vals.filterMap (fun v =>
      match v with
      | some x => if x ≠ 0 then some (decide (x < price)) else none
      | none => none)
    let above_count := (above_below.filter (fun b => b)).length
    let total_count := above_below.length
    let trend_strength : ℚ :=
      if 0 < total_count then (above_count : ℚ) / (total_count : ℚ) * 100 else 0
    let trend :=
      if 80 ≤ trend_strength then "Strong Bullish"
      else if 60 ≤ trend_strength then "Moderately Bullish"
      else if 40 ≤ trend_strength then "Neutral"
      else if 20 ≤ trend_strength then "Moderately Bearish"
      else "Strong Bearish"
    some ⟨trend, round1 trend_strength, above_count, total_count⟩
  | _, _ => none

/-- Models `StockComparator.get_momentum_score` (`compare_stocks.py` lines 74–94):
returns `0.0` for an unknown symbol or a record without `price_changes`;
otherwise the weight-0.4/0.6 accumulation over the horizons present,
divided by the accumulated weight (or 0 if none), rounded to 2 decimals. -/
def get_momentum_score (d : StockData) (symbol : String) : ℚ :=
  match findRecord d symbol with
  | none => 0
  | some r =>
    match r.price_changes with
    | none => 0
    | some pc =>
      let step : ℚ × ℚ → Option ℚ × ℚ → ℚ × ℚ := fun acc entry =>
        match entry.1 with
        | some c => (acc.1 + c * entry.2, acc.2 + entry.2)
        | none => acc
      let acc := ((0, 0) : ℚ × ℚ)
      let acc := step acc (pc.c15, 2/5)
      let acc := step acc (pc.c30, 3/5)
      round2 (if 0 < acc.2 then acc.1 / acc.2 else 0)

/-- Models `StockComparator.get_best_performers` (`compare_stocks.py` lines
23–32): records whose `price_changes` has a non-`null` value for the chosen
period, as `(symbol, change)` pairs, sorted by change descending.
`sorted(..., reverse=True)` is a stable descending sort, modelled by
`mergeSort` with the total preorder `b.2 ≤ a.2`.

The loop body: a record contributes `(symbol, change)` when its
`price_changes` block exists and holds a non-`null` value for the chosen
period. -/
def performanceEntry (period : Horizon) (e : String × StockRecord) : Option (String × ℚ) :=
  match e.2.price_changes with
  | none => none
  | some pc =>
    match pc.get period with
    | none => none
    | some change => some (e.1, change)

def get_best_performers (d : StockData) (period : Horizon) : List (String × ℚ) :=
  let performances := d.filterMap (performanceEntry period)
  performances.mergeSort (fun a b => decide (b.2 ≤ a.2))

/-- The momentum section of `StockComparator.generate_report`
(`compare_stocks.py` lines 132–141): score every symbol of the data, then
`sort(key=score, reverse=True)` — a stable descending sort. -/
def momentum_ranking (d : StockData) : List (String × ℚ) :=
  (d.map (fun e => (e.1, get_momentum_score d e.1))).mergeSort (fun a b => decide (b.2 ≤ a.2))

/-- Models `performers[0]` in the key-insights section of `generate_report`
(`compare_stocks.py` lines 163–165). -/
def report_best (d : StockData) : Option (String × ℚ) :=
  (get_best_performers d .d30).head?

/-- Models `performers[-1]` in the key-insights section of `generate_report`
(`compare_stocks.py` lines 167–169). -/
def report_worst (d : StockData) : Option (String × ℚ) :=
  (get_best_performers d .d30).getLast?

/-! ### Spec-side transcriptions

These definitions follow the specification's wording (they are *not*
translated from the source); the claim theorems compare them with the
source-derived definitions above. -/

/-- Spec §4.3: participation of a moving-average entry as the claim words
it would have to hold of the source — here instead the *source's* Python
truthiness test: defined and nonzero. -/
def participP (v : Option ℚ) : Bool := decide (v.getD 0 ≠ 0)

/-- A participating moving average counted as "above": strictly below the
current price. -/
def aboveBool (price : ℚ) (v : Option ℚ) : Bool :=
  participP v && decide (v.getD 0 < price)

/-- Spec §4.3 classification thresholds (inclusive lower bounds,
descending). -/
def trendLabel (x : ℚ) : String :=
  if 80 ≤ x then "Strong Bullish"
  else if 60 ≤ x then "Moderately Bullish"
  else if 40 ≤ x then "Neutral"
  else if 20 ≤ x then "Moderately Bearish"
  else "Strong Bearish"

/-- The trend assessment as the amended claim words it: counts over the
participating (defined-and-nonzero) moving averages, score
`100 * above / total` (0 when no participant) rounded to one decimal for
the reported `strength_score`, label from the unrounded score. -/
def trendSpec (price : ℚ) (m : MovingAverages) : TrendStrength :=
  let total := m.vals.countP participP
  let above := m.vals.countP (aboveBool price)
  let score : ℚ := if total = 0 then 0 else 100 * (above : ℚ) / (total : ℚ)
  ⟨trendLabel score, round1 score, above, total⟩

/-- Spec §4.4: the momentum score as the claim words it — the weighted
average of the horizons present with weights 0.4/0.6 renormalized over the
present ones, rounded to 2 decimals, and 0 when no horizon is present. -/
def momentumSpec (pc : PriceChanges) : ℚ :=
  match pc.c15, pc.c30 with
  | none, none => 0
  | some a, none => round2 ((a * (2/5)) / (2/5))
  | none, some b => round2 ((b * (3/5)) / (3/5))
  | some a, some b => round2 ((a * (2/5) + b * (3/5)) / (2/5 + 3/5))

/-- Claim C7's ordering: descending by score with ties broken by symbol
ascending. -/
def scoreThenSymbolSorted (l : List (String × ℚ)) : Prop :=
  l.Pairwise (fun a b => b.2 < a.2 ∨ (a.2 = b.2 ∧ a.1 ≤ b.1))

/-! ### Example inputs used by the claim theorems -/

/-- A record with a single *defined* moving average whose value is 0. -/
def exRecC4 : StockRecord :=
  ⟨some ⟨5⟩, some ⟨some 0, none, none, none, none⟩, none⟩

/-- The spec's ranking scenario: A with a 30-day change of +10, B with
−5, C with the 30-day change absent. -/
def exDataC6 : StockData :=
  [("A", ⟨none, none, some ⟨none, some 10⟩⟩),
   ("B", ⟨none, none, some ⟨none, some (-5)⟩⟩),
   ("C", ⟨none, none, some ⟨none, none⟩⟩)]

/-- Two tickers, inserted as B then A, with identical price changes and
hence identical momentum scores. -/
def dC7ex : StockData :=
  [("B", ⟨none, none, some ⟨some 1, some 1⟩⟩),
   ("A", ⟨none, none, some ⟨some 1, some 1⟩⟩)]

/-- A 2-bar series whose last close exceeds its 2-bar mean by 0.0005%:
the rounded deviation collapses to 0.00. -/
def sC9ex : List ℚ := [100, 100001/1000]

/-! ### Rounding lemmas -/

theorem roundHalfEven_intCast (k : ℤ) : roundHalfEven (k : ℚ) = k := by
  unfold roundHalfEven
  simp

theorem roundHalfEven_nonpos {q : ℚ} (h : q ≤ 0) : roundHalfEven q ≤ 0 := by
  have hfq : (⌊q⌋ : ℚ) ≤ q := Int.floor_le q
  have hf : ⌊q⌋ ≤ 0 := by exact_mod_cast hfq.trans h
  unfold roundHalfEven
  split
  · exact hf
  · rename_i h1
    have hfrac : (1:ℚ)/2 ≤ q - (⌊q⌋ : ℚ) := le_of_not_lt h1
    have hneg : ⌊q⌋ ≤ -1 := by
      rcases lt_or_eq_of_le hf with hlt | heq
      · omega
      · exfalso
        rw [heq] at hfrac
        push_cast at hfrac
        linarith
    split
    · omega
    · split <;> omega

/-- A value already expressed with two decimal places is a fixed point of
`round2`. -/
theorem round2_eq_self {q : ℚ} (h : ∃ k : ℤ, q = (k : ℚ) / 100) : round2 q = q := by
  obtain ⟨k, rfl⟩ := h
  have h100 : ((k : ℚ) / 100) * 100 = (k : ℚ) := by ring
  rw [round2, h100, roundHalfEven_intCast]

theorem round2_nonpos {q : ℚ} (h : q ≤ 0) : round2 q ≤ 0 := by
  rw [round2]
  have h1 : q * 100 ≤ 0 := by nlinarith
  have h2 : roundHalfEven (q * 100) ≤ 0 := roundHalfEven_nonpos h1
  have h3 : ((roundHalfEven (q * 100) : ℤ) : ℚ) ≤ 0 := by exact_mod_cast h2
  linarith [div_nonpos_of_nonpos_of_nonneg h3 (by norm_num : (0:ℚ) ≤ 100)]

/-! ### Claim C2 -/

/-- C2: the claim says that when the mean of the trailing-14 losses is 0
the RSI is the defined value 100, never NaN.  The code contradicts it: on
a constant 20-bar series both rolling means are 0, `rs = 0/0` is NaN and
the stored `RSI_14` is NaN. -/
theorem C2_rsi_nan_on_constant_series :
    rsi14 (List.replicate 20 (100 : ℚ)) = some ExtVal.nan := by
  norm_num [rsi14, rsLast, rsiOf, meanLast14, gainVals, lossVals, deltas, lastN,
    List.replicate, ExtVal.round2v]

/-! ### Claim C3 -/

/-- C3 counterexample: a 15-bar series has at least 15 bars, yet the code
computes no RSI for it (`calculate_technical_indicators` returns nothing
below 20 bars), contradicting "RSI(14) is defined for every series with at
least 15 bars". -/
theorem C3_counterexample :
    15 ≤ (List.replicate 15 (100 : ℚ)).length ∧
      rsi14 (List.replicate 15 (100 : ℚ)) = none := by
  constructor
  · simp
  · norm_num [rsi14]

/-- C3 amended: an indicator on a series shorter than it requires is
absent (never 0, never NaN): RSI(14) is defined exactly when the series
has at least 20 bars (the indicator routine's entry gate), and each N-day
moving average (and its deviation) is defined exactly when the series has
at least N bars, for every configured N. -/
theorem C3_absent_below_window (s : List ℚ) :
    ((rsi14 s).isSome ↔ 20 ≤ s.length) ∧
    (∀ p ∈ ([15, 30, 50, 100, 200] : List ℕ),
      ((maValue s p).isSome ↔ p ≤ s.length) ∧
      ((maDiff s p).isSome ↔ p ≤ s.length)) := by
  constructor
  · unfold rsi14
    split
    · rename_i h20
      rw [if_pos (by omega)]
      simp [h20]
    · rename_i h20
      simpa using h20
  · intro p _
    constructor
    · unfold maValue
      split <;> simp_all
    · unfold maDiff
      split <;> simp_all

/-- C3 amended witness: at a 20-bar series the RSI is defined, and at a
30-bar series the 30-day moving average is defined while the 50-day one is
absent. -/
theorem C3_absent_below_window_witness :
    ((rsi14 (List.replicate 20 (100 : ℚ))).isSome ↔ 20 ≤ (List.replicate 20 (100 : ℚ)).length) ∧
    (∀ p ∈ ([15, 30, 50, 100, 200] : List ℕ),
      ((maValue (List.replicate 20 (100 : ℚ)) p).isSome ↔ p ≤ (List.replicate 20 (100 : ℚ)).length) ∧
      ((maDiff (List.replicate 20 (100 : ℚ)) p).isSome ↔ p ≤ (List.replicate 20 (100 : ℚ)).length)) :=
  C3_absent_below_window (List.replicate 20 (100 : ℚ))

/-! ### Claim C8 -/

/-- C8: the claim says a zero moving average makes the percentage
deviation absent rather than infinity/NaN.  The code has no such guard: on
a 15-bar all-zero series the 15-day mean is 0, the current close is 0, and
`(0 - 0) / 0` is stored as NaN — the entry is present and NaN, not absent. -/
theorem C8_ma_zero_gives_nan :
    maRaw (List.replicate 15 (0 : ℚ)) 15 = 0 ∧
      maDiff (List.replicate 15 (0 : ℚ)) 15 = some ExtVal.nan := by
  constructor
  · norm_num [maRaw, lastN, List.replicate]
  · norm_num [maDiff, divPct, maRaw, lastClose, lastN, List.replicate]

/-! ### Claim C1 -/

/-- C1 counterexample: the claim computes a horizon only when the series
has *more than* `h` bars, but the code's guard is `len(df) >= days`: a
1-bar series already gets a 1-day change (of value 0, comparing the last
close with itself), where the claim says the horizon must be absent. -/
theorem C1_counterexample :
    ¬ 1 < ([(100 : ℚ)] : List ℚ).length ∧
      priceChange [(100 : ℚ)] 1 = some (ExtVal.fin 0) := by
  constructor
  · simp
  · have h100 : round2 (100 : ℚ) = 100 := round2_eq_self ⟨10000, by norm_num⟩
    have h0 : round2 (0 : ℚ) = 0 := round2_eq_self ⟨0, by norm_num⟩
    norm_num [priceChange, divPct, lastClose, h100, h0]

/-- C1 amended: the price-change indicator for horizon
`d ∈ {1,5,15,30,90}` is computed exactly when the series has at least `d`
bars (not more than `d`); its reference close is the bar at position
`len - d` (i.e. `d - 1` positions before the last bar), the current price
is the latest close rounded to 2 decimals, and the stored value is
`(current - old) / old * 100` rounded to 2 decimals; each horizon appears
in the `price_changes` dictionary independently, exactly when its own
guard holds. -/
theorem C1_price_change (s : List ℚ) (d : ℕ) (hd : d ∈ ([1, 5, 15, 30, 90] : List ℕ)) :
    (s.length < d → priceChange s d = none) ∧
    (d ≤ s.length → s.getD (s.length - d) 0 ≠ 0 →
      priceChange s d =
        some (ExtVal.fin (round2 ((round2 (lastClose s) - s.getD (s.length - d) 0) /
          s.getD (s.length - d) 0 * 100)))) ∧
    (∀ v : ExtVal, (d, v) ∈ priceChangesDict s ↔ priceChange s d = some v) := by
  refine ⟨?_, ?_, ?_⟩
  · intro h
    unfold priceChange
    rw [if_neg (by omega)]
  · intro h hne
    unfold priceChange
    rw [if_pos h]
    simp only [divPct]
    rw [if_neg hne]
  · intro v
    constructor
    · intro hv
      simp only [priceChangesDict, List.mem_filterMap] at hv
      obtain ⟨a, _, hfa⟩ := hv
      rw [Option.map_eq_some'] at hfa
      obtain ⟨w, hw, heq⟩ := hfa
      injection heq with h1 h2
      subst h1
      subst h2
      exact hw
    · intro hv
      simp only [priceChangesDict, List.mem_filterMap]
      exact ⟨d, hd, by rw [hv]; rfl⟩

/-- C1 witness: the amended statement at the 2-bar series `[50, 100]` and
horizon 1. -/
theorem C1_price_change_witness :
    (1 ∈ ([1, 5, 15, 30, 90] : List ℕ)) ∧
    ((([(50 : ℚ), 100] : List ℚ).length < 1 → priceChange [(50 : ℚ), 100] 1 = none) ∧
     (1 ≤ ([(50 : ℚ), 100] : List ℚ).length →
       [(50 : ℚ), 100].getD (([(50 : ℚ), 100] : List ℚ).length - 1) 0 ≠ 0 →
       priceChange [(50 : ℚ), 100] 1 =
         some (ExtVal.fin (round2 ((round2 (lastClose [(50 : ℚ), 100]) -
             [(50 : ℚ), 100].getD (([(50 : ℚ), 100] : List ℚ).length - 1) 0) /
           [(50 : ℚ), 100].getD (([(50 : ℚ), 100] : List ℚ).length - 1) 0 * 100)))) ∧
     (∀ v : ExtVal, (1, v) ∈ priceChangesDict [(50 : ℚ), 100] ↔
       priceChange [(50 : ℚ), 100] 1 = some v)) :=
  ⟨by decide, C1_price_change [(50 : ℚ), 100] 1 (by decide)⟩

/-! ### Claim C4 -/

/-- C4 counterexample: the claim says every moving average with a defined
value participates in the counts, so this record (one defined MA of value
0, price 5 above it) should give `total_count = 1`, `above_count = 1`,
score 100, "Strong Bullish".  The code's `if ma_value` is Python
truthiness, which also skips a *zero* value: it returns `total_count = 0`,
score 0 and "Strong Bearish". -/
theorem C4_counterexample :
    (exRecC4.moving_averages.map (fun m => m.vals.countP (fun v => v.isSome))) = some 1 ∧
    analyze_trend_strength exRecC4 = some ⟨"Strong Bearish", 0, 0, 0⟩ := by
  constructor
  · rfl
  · have h0 : round1 (0 : ℚ) = 0 := by norm_num [round1, roundHalfEven]
    simp only [analyze_trend_strength, exRecC4, MovingAverages.vals]
    norm_num [h0]

/-- The length of a `filterMap` counts the inputs mapped to `some`. -/
theorem trend_total_eq (price : ℚ) (l : List (Option ℚ)) :
    (l.filterMap (fun v =>
      match v with
      | some x => if x ≠ 0 then some (decide (x < price)) else none
      | none => none)).length = l.countP participP := by
  rw [List.length_filterMap_eq_countP]
  apply List.countP_congr
  intro v _
  cases v with
  | none => simp [participP]
  | some x =>
    by_cases hx : x = 0 <;> simp [participP, hx]

/-- Counting `true` in the filter-mapped list counts the participating
moving averages lying strictly below the price. -/
theorem trend_above_eq (price : ℚ) (l : List (Option ℚ)) :
    ((l.filterMap (fun v =>
      match v with
      | some x => if x ≠ 0 then some (decide (x < price)) else none
      | none => none)).filter (fun b => b)).length = l.countP (aboveBool price) := by
  rw [← List.countP_eq_length_filter, List.countP_filterMap]
  apply List.countP_congr
  intro v _
  cases v with
  | none => simp [aboveBool, participP]
  | some x =>
    by_cases hx : x = 0 <;> simp [aboveBool, participP, hx]

/-- C4 amended: whenever the record has a current price and a
moving-averages block, the trend assessment counts exactly the moving
averages with a defined *nonzero* value (Python truthiness), counts as
"above" those strictly below the current price, reports
`strength_score = round1(100 * above / total)` (0 when no MA
participates), and labels the unrounded score by the inclusive thresholds
80/60/40/20 — so zero participating MAs yields score 0 and
"Strong Bearish". -/
theorem C4_trend (r : StockRecord) (st : CurrentStats) (ma : MovingAverages)
    (h1 : r.current_stats = some st) (h2 : r.moving_averages = some ma) :
    analyze_trend_strength r = some (trendSpec st.current_price ma) := by
  unfold analyze_trend_strength
  rw [h1, h2]
  have ht := trend_total_eq st.current_price ma.vals
  have ha := trend_above_eq st.current_price ma.vals
  simp only [trendSpec, trendLabel, ht, ha]
  have hscore : ∀ total above : ℕ,
      (if 0 < total then (above : ℚ) / (total : ℚ) * 100 else 0) =
        (if total = 0 then 0 else 100 * (above : ℚ) / (total : ℚ)) := by
    intro total above
    rcases Nat.eq_zero_or_pos total with h | h
    · simp [h]
    · rw [if_pos h, if_neg (Nat.pos_iff_ne_zero.mp h)]
      ring
  rw [hscore]

/-- C4 witness: the amended statement at a record with price 100 and
moving averages `[90, 110, 0, null, 100]` — three participating MAs, one
above, score `round1(100/3) = 33.3`, label "Moderately Bearish". -/
theorem C4_trend_witness :
    ((⟨some ⟨100⟩, some ⟨some 90, some 110, some 0, none, some 100⟩, none⟩ :
        StockRecord).current_stats = some ⟨100⟩) ∧
    ((⟨some ⟨100⟩, some ⟨some 90, some 110, some 0, none, some 100⟩, none⟩ :
        StockRecord).moving_averages = some ⟨some 90, some 110, some 0, none, some 100⟩) ∧
    analyze_trend_strength
        (⟨some ⟨100⟩, some ⟨some 90, some 110, some 0, none, some 100⟩, none⟩ : StockRecord) =
      some (trendSpec (100 : ℚ) ⟨some 90, some 110, some 0, none, some 100⟩) :=
  ⟨rfl, rfl,
    C4_trend ⟨some ⟨100⟩, some ⟨some 90, some 110, some 0, none, some 100⟩, none⟩
      ⟨100⟩ ⟨some 90, some 110, some 0, none, some 100⟩ rfl rfl⟩

/-! ### Claim C5 -/

theorem round2_zero : round2 (0 : ℚ) = 0 := round2_eq_self ⟨0, by norm_num⟩

/-- C5: for a record whose `price_changes` block exists, the momentum
score is the 0.4/0.6-weighted average over the horizons present with the
weights renormalized, rounded to 2 decimals; it is exactly 0 when neither
horizon is present, and it equals the 30-day change exactly when only the
30-day change is present (and that change carries 2 decimals, as every
analyzer-produced change does). -/
theorem C5_momentum (d : StockData) (symbol : String) (r : StockRecord) (pc : PriceChanges)
    (h1 : findRecord d symbol = some r) (h2 : r.price_changes = some pc) :
    get_momentum_score d symbol = momentumSpec pc ∧
    (pc.c15 = none → pc.c30 = none → get_momentum_score d symbol = 0) ∧
    (∀ c : ℚ, pc.c15 = none → pc.c30 = some c → (∃ k : ℤ, c = (k : ℚ) / 100) →
      get_momentum_score d symbol = c) := by
  have hmain : get_momentum_score d symbol = momentumSpec pc := by
    simp only [get_momentum_score, h1, h2]
    cases hc15 : pc.c15 with
    | none =>
      cases hc30 : pc.c30 with
      | none => simp [momentumSpec, hc15, hc30, round2_zero]
      | some b =>
        simp only [momentumSpec, hc15, hc30]
        norm_num
    | some a =>
      cases hc30 : pc.c30 with
      | none =>
        simp only [momentumSpec, hc15, hc30]
        norm_num
      | some b =>
        simp only [momentumSpec, hc15, hc30]
        norm_num
  refine ⟨hmain, ?_, ?_⟩
  · intro h15 h30
    rw [hmain]
    simp [momentumSpec, h15, h30]
  · intro c h15 h30 hk
    rw [hmain]
    simp only [momentumSpec, h15, h30]
    have harith : c * (3/5) / (3/5 : ℚ) = c := by ring
    rw [harith]
    exact round2_eq_self hk

/-- C5 witness: a one-ticker data set whose record has only a 30-day
change of 7%; its momentum score equals 7 exactly. -/
theorem C5_momentum_witness :
    (findRecord [("A", (⟨none, none, some ⟨none, some 7⟩⟩ : StockRecord))] "A" =
      some ⟨none, none, some ⟨none, some 7⟩⟩) ∧
    ((⟨none, none, some ⟨none, some 7⟩⟩ : StockRecord).price_changes = some ⟨none, some 7⟩) ∧
    (get_momentum_score [("A", (⟨none, none, some ⟨none, some 7⟩⟩ : StockRecord))] "A" =
        momentumSpec ⟨none, some 7⟩ ∧
      ((⟨none, (some 7 : Option ℚ)⟩ : PriceChanges).c15 = none →
        (⟨none, (some 7 : Option ℚ)⟩ : PriceChanges).c30 = none →
        get_momentum_score [("A", (⟨none, none, some ⟨none, some 7⟩⟩ : StockRecord))] "A" = 0) ∧
      (∀ c : ℚ, (⟨none, (some 7 : Option ℚ)⟩ : PriceChanges).c15 = none →
        (⟨none, (some 7 : Option ℚ)⟩ : PriceChanges).c30 = some c →
        (∃ k : ℤ, c = (k : ℚ) / 100) →
        get_momentum_score [("A", (⟨none, none, some ⟨none, some 7⟩⟩ : StockRecord))] "A" = c)) :=
  ⟨rfl, rfl,
    C5_momentum [("A", (⟨none, none, some ⟨none, some 7⟩⟩ : StockRecord))] "A"
      ⟨none, none, some ⟨none, some 7⟩⟩ ⟨none, some 7⟩ rfl rfl⟩

/-! ### Claim C6 -/

/-- The Boolean comparison used by the descending sorts is transitive. -/
theorem descLE_trans (a b c : String × ℚ) :
    decide (b.2 ≤ a.2) = true → decide (c.2 ≤ b.2) = true →
      decide (c.2 ≤ a.2) = true := by
  simp only [decide_eq_true_eq]
  exact fun h1 h2 => le_trans h2 h1

/-- The Boolean comparison used by the descending sorts is total. -/
theorem descLE_total (a b : String × ℚ) :
    (decide (b.2 ≤ a.2) || decide (a.2 ≤ b.2)) = true := by
  simp only [Bool.or_eq_true, decide_eq_true_eq]
  exact le_total b.2 a.2

/-- When `performanceEntry` yields a pair: the record's `price_changes`
block exists and holds a defined value for the period. -/
theorem performanceEntry_eq_some (period : Horizon) (e : String × StockRecord)
    (sym : String) (c : ℚ) :
    performanceEntry period e = some (sym, c) ↔
      e.1 = sym ∧ ∃ pc, e.2.price_changes = some pc ∧ pc.get period = some c := by
  unfold performanceEntry
  cases hpc : e.2.price_changes with
  | none => simp
  | some pc =>
    cases hg : pc.get period with
    | none => simp [hg]
    | some c' =>
      simp only [hg, Option.some.injEq, Prod.mk.injEq]
      constructor
      · rintro ⟨rfl, rfl⟩
        exact ⟨rfl, pc, rfl, hg⟩
      · rintro ⟨rfl, pc', rfl, hg'⟩
        rw [hg] at hg'
        injection hg' with h
        exact ⟨rfl, h⟩

/-- C6: the best-performers ranking contains exactly the records whose
value for the chosen horizon is defined (absent values are excluded, not
placed), sorted descending by that value; and on the scenario data (A at
+10.00%, B at −5.00%, C absent) the list is `[A, B]`, the summary's best
performer is its head A and the worst performer is its tail B. -/
theorem C6_best_performers (d : StockData) (period : Horizon) :
    (get_best_performers d period).Pairwise (fun a b => b.2 ≤ a.2) ∧
    (∀ sym c, (sym, c) ∈ get_best_performers d period ↔
      ∃ r : StockRecord, (sym, r) ∈ d ∧
        ∃ pc, r.price_changes = some pc ∧ pc.get period = some c) ∧
    (get_best_performers exDataC6 .d30 = [("A", 10), ("B", -5)] ∧
      report_best exDataC6 = some ("A", 10) ∧
      report_worst exDataC6 = some ("B", -5)) := by
  have hcompute : get_best_performers exDataC6 .d30 = [("A", 10), ("B", -5)] := by
    have hfm : exDataC6.filterMap (performanceEntry .d30) =
        [("A", (10 : ℚ)), ("B", -5)] := rfl
    have hsorted : ([("A", (10 : ℚ)), ("B", -5)] :
        List (String × ℚ)).Pairwise (fun a b => decide (b.2 ≤ a.2)) := by
      refine List.Pairwise.cons ?_ (List.Pairwise.cons ?_ List.Pairwise.nil)
      · intro b hb
        rw [List.mem_singleton] at hb
        subst hb
        exact decide_eq_true (by norm_num)
      · intro b hb
        cases hb
    simp only [get_best_performers]
    rw [hfm]
    exact List.mergeSort_of_sorted hsorted
  refine ⟨?_, ?_, hcompute, ?_, ?_⟩
  · have hs := List.sorted_mergeSort descLE_trans descLE_total
      (d.filterMap (performanceEntry period))
    simp only [get_best_performers]
    exact hs.imp (fun h => by simpa using h)
  · intro sym c
    simp only [get_best_performers, List.mem_mergeSort, List.mem_filterMap]
    constructor
    · rintro ⟨⟨s', r⟩, hmem, hf⟩
      rw [performanceEntry_eq_some] at hf
      obtain ⟨h1, pc, hpc, hg⟩ := hf
      dsimp at h1 hpc
      subst h1
      exact ⟨r, hmem, pc, hpc, hg⟩
    · rintro ⟨r, hmem, pc, hpc, hg⟩
      refine ⟨(sym, r), hmem, ?_⟩
      rw [performanceEntry_eq_some]
      exact ⟨rfl, pc, hpc, hg⟩
  · rw [report_best, hcompute]
    rfl
  · rw [report_worst, hcompute]
    rfl

/-! ### Claim C7 -/

theorem round2_one : round2 (1 : ℚ) = 1 := round2_eq_self ⟨100, by norm_num⟩

theorem not_B_le_A : ¬ (("B" : String) ≤ "A") := by
  simp
  have hc : ('A' : Char) < 'B' := by decide
  exact List.Lex.rel hc

theorem dC7ex_scores :
    get_momentum_score dC7ex "B" = 1 ∧ get_momentum_score dC7ex "A" = 1 := by
  constructor <;>
  · simp only [get_momentum_score, findRecord, dC7ex]
    norm_num [round2_one]

/-- C7 counterexample: the claim says ties in the momentum ranking are
broken by ticker symbol ascending.  The code's sort is stable on the
insertion order: with B inserted before A and equal scores, the ranking
is `[B, A]`, which is not ordered by (score descending, symbol
ascending). -/
theorem C7_counterexample :
    momentum_ranking dC7ex = [("B", 1), ("A", 1)] ∧
      ¬ scoreThenSymbolSorted [("B", (1 : ℚ)), ("A", 1)] := by
  obtain ⟨hB, hA⟩ := dC7ex_scores
  have hmap : dC7ex.map (fun e => (e.1, get_momentum_score dC7ex e.1)) =
      [("B", (1 : ℚ)), ("A", 1)] := by
    rw [show dC7ex.map (fun e => (e.1, get_momentum_score dC7ex e.1)) =
        [("B", get_momentum_score dC7ex "B"), ("A", get_momentum_score dC7ex "A")] from rfl]
    rw [hB, hA]
  have hsorted : ([("B", (1 : ℚ)), ("A", 1)] :
      List (String × ℚ)).Pairwise (fun a b => decide (b.2 ≤ a.2)) := by
    refine List.Pairwise.cons ?_ (List.Pairwise.cons ?_ List.Pairwise.nil)
    · intro b hb
      rw [List.mem_singleton] at hb
      subst hb
      exact decide_eq_true (le_refl (1 : ℚ))
    · intro b hb
      cases hb
  constructor
  · simp only [momentum_ranking]
    rw [hmap]
    exact List.mergeSort_of_sorted hsorted
  · intro hs
    rcases hs with _ | ⟨hrel, _⟩
    have h := hrel ("A", 1) (List.mem_singleton.mpr rfl)
    rcases h with hlt | ⟨_, hle⟩
    · exact absurd hlt (by norm_num)
    · exact not_B_le_A hle

/-- C7 amended: the momentum ranking is sorted descending by
momentum_score and is a permutation of the per-ticker scored list; ties
between equal scores keep their relative order from the input data (the
sort is stable), so the ranking is deterministic given the input order
but is *not* tie-broken by ticker symbol. -/
theorem C7_momentum_ranking (d : StockData) :
    (momentum_ranking d).Pairwise (fun a b => b.2 ≤ a.2) ∧
    (momentum_ranking d).Perm (d.map (fun e => (e.1, get_momentum_score d e.1))) ∧
    (∀ a b : String × ℚ,
      List.Sublist [a, b] (d.map (fun e => (e.1, get_momentum_score d e.1))) →
      b.2 ≤ a.2 → List.Sublist [a, b] (momentum_ranking d)) := by
  refine ⟨?_, ?_, ?_⟩
  · have hs := List.sorted_mergeSort descLE_trans descLE_total
      (d.map (fun e => (e.1, get_momentum_score d e.1)))
    simp only [momentum_ranking]
    exact hs.imp (fun h => by simpa using h)
  · simp only [momentum_ranking]
    exact List.mergeSort_perm _ _
  · intro a b hsub hle
    simp only [momentum_ranking]
    exact List.pair_sublist_mergeSort descLE_trans descLE_total (decide_eq_true hle) hsub

/-- C7 witness: the amended statement at a one-ticker data set. -/
theorem C7_momentum_ranking_witness :
    (momentum_ranking [("Z", (⟨none, none, none⟩ : StockRecord))]).Pairwise
        (fun a b => b.2 ≤ a.2) ∧
    (momentum_ranking [("Z", (⟨none, none, none⟩ : StockRecord))]).Perm
        ([("Z", (⟨none, none, none⟩ : StockRecord))].map
          (fun e => (e.1, get_momentum_score [("Z", (⟨none, none, none⟩ : StockRecord))] e.1))) ∧
    (∀ a b : String × ℚ,
      List.Sublist [a, b] ([("Z", (⟨none, none, none⟩ : StockRecord))].map
        (fun e => (e.1, get_momentum_score [("Z", (⟨none, none, none⟩ : StockRecord))] e.1))) →
      b.2 ≤ a.2 →
      List.Sublist [a, b] (momentum_ranking [("Z", (⟨none, none, none⟩ : StockRecord))])) :=
  C7_momentum_ranking [("Z", (⟨none, none, none⟩ : StockRecord))]

/-! ### Claim C9 -/

/-- C9 counterexample: the claim says the reported deviation is positive
iff the close strictly exceeds the moving average.  Here the close
(100.001) exceeds the 2-bar moving average (100.0005), yet the deviation
rounds to exactly 0.00 — not positive. -/
theorem C9_counterexample :
    maRaw sC9ex 2 < lastClose sC9ex ∧
      maDiff sC9ex 2 = some (ExtVal.fin 0) := by
  have hma : maRaw sC9ex 2 = 200001/2000 := by
    norm_num [maRaw, sC9ex, lastN]
  have hlast : lastClose sC9ex = 100001/1000 := by
    norm_num [lastClose, sC9ex]
  constructor
  · rw [hma, hlast]
    norm_num
  · have hfloor : ⌊(10000/200001 : ℚ)⌋ = 0 := by
      rw [Int.floor_eq_zero_iff, Set.mem_Ico]
      norm_num
    have hrhe : roundHalfEven (10000/200001 : ℚ) = 0 := by
      unfold roundHalfEven
      rw [hfloor]
      norm_num
    have hr2 : round2 (100/200001 : ℚ) = 0 := by
      unfold round2
      rw [show (100/200001 : ℚ) * 100 = 10000/200001 by norm_num, hrhe]
      norm_num
    show (if 2 ≤ sC9ex.length then
        some (divPct (lastClose sC9ex - maRaw sC9ex 2) (maRaw sC9ex 2))
      else none) = some (ExtVal.fin 0)
    rw [if_pos (by norm_num [sC9ex]), hma, hlast]
    unfold divPct
    rw [if_neg (by norm_num)]
    rw [show ((100001/1000 - 200001/2000) / (200001/2000) * 100 : ℚ) = 100/200001 by
      norm_num]
    rw [hr2]

/-- C9 amended: for a defined moving average with a positive mean, the
*unrounded* deviation `(close - MA) / MA * 100` is positive iff the close
strictly exceeds the MA; for the *reported* (2-decimal-rounded) deviation
only one direction survives rounding: a positive reported deviation
implies close > MA, but close > MA can yield a reported deviation of
0.00. -/
theorem C9_deviation_sign (s : List ℚ) (p : ℕ) (hp : p ≤ s.length)
    (hma : 0 < maRaw s p) :
    (0 < (lastClose s - maRaw s p) / maRaw s p * 100 ↔ maRaw s p < lastClose s) ∧
    (∀ dv : ℚ, maDiff s p = some (ExtVal.fin dv) → 0 < dv →
      maRaw s p < lastClose s) := by
  constructor
  · constructor
    · intro hpos
      by_contra hnc
      have hle : lastClose s - maRaw s p ≤ 0 := by linarith [le_of_not_lt hnc]
      have hdiv : (lastClose s - maRaw s p) / maRaw s p ≤ 0 :=
        div_nonpos_iff.mpr (Or.inr ⟨hle, le_of_lt hma⟩)
      nlinarith
    · intro hlt
      have hdiv : 0 < (lastClose s - maRaw s p) / maRaw s p :=
        div_pos (by linarith) hma
      nlinarith
  · intro dv hdv hpos
    unfold maDiff at hdv
    rw [if_pos hp] at hdv
    simp only [divPct] at hdv
    rw [if_neg (ne_of_gt hma)] at hdv
    injection hdv with h1
    injection h1 with h2
    by_contra hnc
    have hle : lastClose s - maRaw s p ≤ 0 := by linarith [le_of_not_lt hnc]
    have hdiv : (lastClose s - maRaw s p) / maRaw s p ≤ 0 :=
      div_nonpos_iff.mpr (Or.inr ⟨hle, le_of_lt hma⟩)
    have hmul : (lastClose s - maRaw s p) / maRaw s p * 100 ≤ 0 := by nlinarith
    have hr := round2_nonpos hmul
    rw [h2] at hr
    linarith

/-- C9 witness: the amended statement at the series `[100, 300]` with the
2-bar moving average 200. -/
theorem C9_deviation_sign_witness :
    (2 ≤ ([(100 : ℚ), 300] : List ℚ).length ∧ 0 < maRaw [(100 : ℚ), 300] 2) ∧
    ((0 < (lastClose [(100 : ℚ), 300] - maRaw [(100 : ℚ), 300] 2) /
        maRaw [(100 : ℚ), 300] 2 * 100 ↔
      maRaw [(100 : ℚ), 300] 2 < lastClose [(100 : ℚ), 300]) ∧
    (∀ dv : ℚ, maDiff [(100 : ℚ), 300] 2 = some (ExtVal.fin dv) → 0 < dv →
      maRaw [(100 : ℚ), 300] 2 < lastClose [(100 : ℚ), 300])) :=
  ⟨⟨by norm_num, by norm_num [maRaw, lastN]⟩,
    C9_deviation_sign [(100 : ℚ), 300] 2 (by norm_num) (by norm_num [maRaw, lastN])⟩

/-! ### Claim C10 -/

/-- C10: an unknown symbol, or a record without a `price_changes` block
(an error-marker record), gets momentum score exactly 0 rather than a
failure or an absent value; consequently every such ticker present in the
data still appears in the momentum ranking, with score 0. -/
theorem C10_momentum_default (d : StockData) (symbol : String)
    (h : findRecord d symbol = none ∨
      ∃ r : StockRecord, findRecord d symbol = some r ∧ r.price_changes = none) :
    get_momentum_score d symbol = 0 ∧
    (∀ r : StockRecord, (symbol, r) ∈ d → (symbol, (0 : ℚ)) ∈ momentum_ranking d) := by
  have h0 : get_momentum_score d symbol = 0 := by
    rcases h with hn | ⟨r, hs, hpc⟩
    · simp [get_momentum_score, hn]
    · simp [get_momentum_score, hs, hpc]
  refine ⟨h0, ?_⟩
  intro r hmem
  have hmapmem : (symbol, get_momentum_score d symbol) ∈
      d.map (fun e => (e.1, get_momentum_score d e.1)) :=
    List.mem_map.mpr ⟨(symbol, r), hmem, rfl⟩
  rw [h0] at hmapmem
  simp only [momentum_ranking]
  rw [List.mem_mergeSort]
  exact hmapmem

/-- C10 witness: a one-ticker data set whose record is an error marker
(no `price_changes`); its score is 0 and it appears in the ranking. -/
theorem C10_momentum_default_witness :
    (findRecord [("ERR", (⟨none, none, none⟩ : StockRecord))] "ERR" =
        some ⟨none, none, none⟩ ∧
      (⟨none, none, none⟩ : StockRecord).price_changes = none) ∧
    (get_momentum_score [("ERR", (⟨none, none, none⟩ : StockRecord))] "ERR" = 0 ∧
     (∀ r : StockRecord, ("ERR", r) ∈ [("ERR", (⟨none, none, none⟩ : StockRecord))] →
       ("ERR", (0 : ℚ)) ∈ momentum_ranking [("ERR", (⟨none, none, none⟩ : StockRecord))])) :=
  ⟨⟨rfl, rfl⟩,
    C10_momentum_default [("ERR", (⟨none, none, none⟩ : StockRecord))] "ERR"
      (Or.inr ⟨⟨none, none, none⟩, rfl, rfl⟩)⟩
